import Mathlib

/-! Verification development for the key-rotation engine and the
notification dispatch wrapper of an OpenAI organization admin CLI.
The Python source (rotation commands, notification wrapper, REST client
boundary) is shallowly embedded: resource names are lists of characters,
the REST capability is an explicit environment of call results, and each
command's observable behaviour (REST calls issued, console output,
exit code) is a record computed by a pure function. -/

namespace OpenAIAdmin

/-- The date part of a Python `datetime` (hours and minutes are always zero
for dates built by the rotation code). Comparison in Python is
lexicographic on (year, month, day). -/
structure PyDate where
  year : Nat
  month : Nat
  day : Nat
  deriving DecidableEq

/-- Lexicographic order on dates, as Python compares `datetime` values. -/
def dateLe (a b : PyDate) : Bool :=
  a.year < b.year ||
    (a.year = b.year && (a.month < b.month ||
      (a.month = b.month && a.day ≤ b.day)))

/-- Strict lexicographic order on dates (Python `<` on dates). -/
def dateLt (a b : PyDate) : Bool :=
  a.year < b.year ||
    (a.year = b.year && (a.month < b.month ||
      (a.month = b.month && a.day < b.day)))

theorem dateLe_refl (a : PyDate) : dateLe a a = true := by
  simp [dateLe]

theorem dateLe_total (a b : PyDate) : dateLe a b = true ∨ dateLe b a = true := by
  simp only [dateLe, Bool.or_eq_true, Bool.and_eq_true, decide_eq_true_eq]
  omega

theorem dateLe_trans {a b c : PyDate} (h1 : dateLe a b = true)
    (h2 : dateLe b c = true) : dateLe a c = true := by
  simp only [dateLe, Bool.or_eq_true, Bool.and_eq_true, decide_eq_true_eq] at *
  omega

theorem dateLe_antisymm {a b : PyDate} (h1 : dateLe a b = true)
    (h2 : dateLe b a = true) : a = b := by
  simp only [dateLe, Bool.or_eq_true, Bool.and_eq_true, decide_eq_true_eq] at *
  obtain ⟨ya, ma, da⟩ := a
  obtain ⟨yb, mb, db⟩ := b
  simp_all
  omega

theorem not_dateLe {a b : PyDate} (h : ¬ dateLe a b = true) :
    dateLe b a = true := by
  rcases dateLe_total a b with h1 | h1
  · exact absurd h1 h
  · exact h1

/-- Python's Gregorian leap-year rule (`calendar.isleap`, used by
`datetime`'s day-of-month validation). -/
def isLeapYear (y : Nat) : Bool :=
  (y % 4 = 0 && ¬ y % 100 = 0) || y % 400 = 0

/-- Number of days in a month, as `datetime` validates the day field. -/
def daysInMonth (y m : Nat) : Nat :=
  if m = 2 then (if isLeapYear y then 29 else 28)
  else if m = 4 ∨ m = 6 ∨ m = 9 ∨ m = 11 then 30
  else 31

/-- Whether `datetime(y, m, d)` succeeds (no `ValueError`):
1 ≤ year ≤ 9999, month in 1..12, day within the month. -/
def isValidDate (y m d : Nat) : Bool :=
  1 ≤ y && y ≤ 9999 && 1 ≤ m && m ≤ 12 && 1 ≤ d && d ≤ daysInMonth y m

/-- `datetime(y, m, d)` of the Python source: the date when the calendar
values are valid, and the `ValueError` branch (`none`) otherwise. -/
def mkDatetime (y m d : Nat) : Option PyDate :=
  if isValidDate y m d then some ⟨y, m, d⟩ else none

/-- Numeric value of an ASCII digit character. -/
def digitVal (c : Char) : Nat := c.toNat - 48

/-- Value of a two-digit ASCII numeral, as Python `int` reads it. -/
def val2 (c1 c2 : Char) : Nat := 10 * digitVal c1 + digitVal c2

/-- Value of a four-digit ASCII numeral, as Python `int` reads it. -/
def val4 (c1 c2 c3 c4 : Char) : Nat :=
  1000 * digitVal c1 + 100 * digitVal c2 + 10 * digitVal c3 + digitVal c4

/-- The capture groups of `(\d{4})-(\d{2})-(\d{2})` matched against the
whole remainder of the name (after the prefix and its dash). -/
def matchFullDate : List Char → Option (Nat × Nat × Nat)
  | [c1, c2, c3, c4, h1, c5, c6, h2, c7, c8] =>
    if c1.isDigit && c2.isDigit && c3.isDigit && c4.isDigit &&
        h1 == '-' && c5.isDigit && c6.isDigit && h2 == '-' &&
        c7.isDigit && c8.isDigit then
      some (val4 c1 c2 c3 c4, val2 c5 c6, val2 c7 c8)
    else none
  | _ => none

/-- The capture groups of `(\d{2})-(\d{2})` matched against the whole
remainder of the name (after the prefix and its dash). -/
def matchShortDate : List Char → Option (Nat × Nat)
  | [c1, c2, h1, c3, c4] =>
    if c1.isDigit && c2.isDigit && h1 == '-' && c3.isDigit && c4.isDigit then
      some (val2 c1 c2, val2 c3 c4)
    else none
  | _ => none

/-- `_parse_service_account_date` of `rotation.py`: try
`pfx-YYYY-MM-DD` first (invalid calendar values give `none`, not a
fallthrough), then `pfx-YY-MM` (year 2000+YY, day 1), else no match.
The regex anchors `^`/`$` and `re.escape(prefix)` make the match exactly a
structural decomposition of the name. -/
def parse_service_account_date (name pfx : List Char) : Option PyDate :=
  if name.take (pfx.length + 1) = pfx ++ ['-'] then
    match matchFullDate (name.drop (pfx.length + 1)) with
    | some (y, m, d) => mkDatetime y m d
    | none =>
      match matchShortDate (name.drop (pfx.length + 1)) with
      | some (yy, mm) => mkDatetime (2000 + yy) mm 1
      | none => none
  else none

/-- A remote service-account record, with the attributes the rotation code
reads (`sa.get('id')`, `sa.get('name', '')`, `sa.get('created_at')`,
`sa.get('role')`). -/
structure ServiceAccount where
  id : String
  name : List Char
  created_at : Int
  role : String
  deriving DecidableEq

/-- The annotated dictionary `_find_matching_service_accounts` builds for
each match: parsed name date plus the original attributes. -/
structure Candidate where
  id : String
  name : List Char
  date : PyDate
  created_at : Int
  role : String
  deriving DecidableEq

/-- Descending order on candidates by parsed date (newest first). -/
def candGe (a b : Candidate) : Prop := dateLe b.date a.date = true

instance : DecidablePred fun p : Candidate × Candidate => candGe p.1 p.2 :=
  fun p => by unfold candGe; infer_instance

instance (a b : Candidate) : Decidable (candGe a b) := by
  unfold candGe; infer_instance

/-- Insert a candidate into a list sorted newest-first, after every element
whose date is at least as new: a stable descending insertion. -/
def insertByDate (x : Candidate) : List Candidate → List Candidate
  | [] => [x]
  | y :: ys =>
    if dateLe y.date x.date then x :: y :: ys else y :: insertByDate x ys

/-- Stable sort by parsed date, newest first. Python's
`list.sort(key=lambda x: x['date'], reverse=True)` is a stable descending
sort; a stable descending sort of a list is unique, so this insertion sort
computes the same list. -/
def sortByDateDesc : List Candidate → List Candidate
  | [] => []
  | x :: xs => insertByDate x (sortByDateDesc xs)

/-- The filter-and-annotate pass of `_find_matching_service_accounts`
before sorting, in input order. (A parsed `datetime` is always truthy, so
the Python `if date:` test is exactly `is not None`.) -/
def matchingCandidates (sas : List ServiceAccount) (pfx : List Char) :
    List Candidate :=
  sas.filterMap fun sa =>
    (parse_service_account_date sa.name pfx).map fun d =>
      { id := sa.id, name := sa.name, date := d, created_at := sa.created_at,
        role := sa.role }

/-- `_find_matching_service_accounts` of `rotation.py`: keep the resources
whose name parses for the prefix, annotate them, and sort newest first. -/
def find_matching_service_accounts (sas : List ServiceAccount)
    (pfx : List Char) : List Candidate :=
  sortByDateDesc (matchingCandidates sas pfx)

theorem insertByDate_perm (x : Candidate) (l : List Candidate) :
    (insertByDate x l).Perm (x :: l) := by
  induction l with
  | nil => simp [insertByDate]
  | cons y ys ih =>
    simp only [insertByDate]
    split
    · exact List.Perm.refl _
    · exact ((ih.cons y).trans (List.Perm.swap x y ys))

theorem sortByDateDesc_perm (l : List Candidate) :
    (sortByDateDesc l).Perm l := by
  induction l with
  | nil => simp [sortByDateDesc]
  | cons x xs ih =>
    exact (insertByDate_perm x (sortByDateDesc xs)).trans (ih.cons x)

theorem insertByDate_sorted {l : List Candidate} (x : Candidate)
    (h : l.Pairwise candGe) : (insertByDate x l).Pairwise candGe := by
  induction l with
  | nil => simp [insertByDate, List.Pairwise]
  | cons y ys ih =>
    simp only [insertByDate]
    rcases List.pairwise_cons.mp h with ⟨hy, hys⟩
    split
    · rename_i hle
      refine List.pairwise_cons.mpr ⟨?_, h⟩
      intro b hb
      rcases List.mem_cons.mp hb with hb1 | hb1
      · subst hb1; exact hle
      · exact dateLe_trans (hy b hb1) hle
    · rename_i hle
      refine List.pairwise_cons.mpr ⟨?_, ih hys⟩
      intro b hb
      rcases List.mem_cons.mp ((insertByDate_perm x ys).mem_iff.mp hb) with
        hb2 | hb2
      · subst hb2
        exact not_dateLe hle
      · exact hy b hb2

theorem sortByDateDesc_sorted (l : List Candidate) :
    (sortByDateDesc l).Pairwise candGe := by
  induction l with
  | nil => simp [sortByDateDesc]
  | cons x xs ih => exact insertByDate_sorted x ih

theorem insertByDate_filter_eq (x : Candidate) (l : List Candidate)
    (d : PyDate) (hx : x.date = d) :
    (insertByDate x l).filter (fun c => c.date = d) =
      x :: l.filter (fun c => c.date = d) := by
  induction l with
  | nil => simp [insertByDate, List.filter, hx]
  | cons y ys ih =>
    simp only [insertByDate]
    split
    · simp [List.filter, hx]
    · rename_i hle
      have hyd : ¬ y.date = d := by
        intro hyd
        exact hle (by rw [hyd, ← hx]; exact dateLe_refl _)
      simp [List.filter, hyd, ih]

theorem insertByDate_filter_ne (x : Candidate) (l : List Candidate)
    (d : PyDate) (hx : ¬ x.date = d) :
    (insertByDate x l).filter (fun c => c.date = d) =
      l.filter (fun c => c.date = d) := by
  induction l with
  | nil => simp [insertByDate, List.filter, hx]
  | cons y ys ih =>
    simp only [insertByDate]
    split
    · simp [List.filter, hx]
    · by_cases hyd : y.date = d
      · simp [List.filter, hyd, ih]
      · simp [List.filter, hyd, ih]

/-- Stability of the sort: candidates of any one parsed date appear in the
output in their input order. -/
theorem sortByDateDesc_stable (l : List Candidate) (d : PyDate) :
    (sortByDateDesc l).filter (fun c => c.date = d) =
      l.filter (fun c => c.date = d) := by
  induction l with
  | nil => simp [sortByDateDesc]
  | cons x xs ih =>
    simp only [sortByDateDesc]
    by_cases hx : x.date = d
    · rw [insertByDate_filter_eq x _ d hx]
      simp [List.filter, hx, ih]
    · rw [insertByDate_filter_ne x _ d hx]
      simp [List.filter, hx, ih]

/-- ASCII digit character for a value below ten. -/
def digitChar (n : Nat) : Char := Char.ofNat (48 + n)

/-- Two-digit zero-padded rendering (`strftime` `%y`, `%m`, `%d`). -/
def twoDigits (n : Nat) : List Char := [digitChar (n / 10 % 10), digitChar (n % 10)]

/-- Four-digit zero-padded rendering (`strftime` `%Y` for years the tool
ever generates). -/
def fourDigits (n : Nat) : List Char :=
  [digitChar (n / 1000 % 10), digitChar (n / 100 % 10),
    digitChar (n / 10 % 10), digitChar (n % 10)]

/-- The two `--date-format` choices. -/
inductive DateFmt where
  | yymm
  | yyyymmdd
  deriving DecidableEq

/-- Today's expected service-account name:
`f"{prefix}-{today.strftime('%y-%m')}"` or
`f"{prefix}-{today.strftime('%Y-%m-%d')}"`. -/
def newSaName (pfx : List Char) (fmt : DateFmt) (today : PyDate) : List Char :=
  match fmt with
  | .yymm => pfx ++ '-' :: (twoDigits (today.year % 100) ++ '-' :: twoDigits today.month)
  | .yyyymmdd =>
    pfx ++ '-' :: (fourDigits today.year ++ '-' ::
      (twoDigits today.month ++ '-' :: twoDigits today.day))

/-- Python list slice `l[:k]` for an `int` bound: nonnegative `k` takes the
first `k`, negative `k` drops the last `-k` (clamped). -/
def pySliceTo (k : Int) (l : List Candidate) : List Candidate :=
  if 0 ≤ k then l.take k.toNat else l.take (l.length - (-k).toNat)

/-- Python list slice `l[k:]` for an `int` bound: nonnegative `k` drops the
first `k`, negative `k` keeps the last `-k` (clamped). -/
def pySliceFrom (k : Int) (l : List Candidate) : List Candidate :=
  if 0 ≤ k then l.drop k.toNat else l.drop (l.length - (-k).toNat)

/-- Outcome of one `deleteResource` call of the REST capability:
success, a NotFound typed failure (HTTP 404 re-raised by the client as an
`HTTPError`), or any other failure raised to the caller. -/
inductive DelOutcome where
  | success
  | notFound
  | otherError
  deriving DecidableEq

/-- Result of `create_project_service_account`: the new id and the
optional embedded one-time secret. -/
structure CreateResp where
  id : String
  apiKeyValue : Option String
  deriving DecidableEq

/-- Observable behaviour of one `rotation cleanup` invocation. -/
structure CleanupResult where
  /-- `some c`: the process terminated early via `sys.exit(c)`. -/
  exitCode : Option Nat
  /-- The command returned after reporting that nothing needs cleanup. -/
  noop : Bool
  /-- The confirmation prompt was declined. -/
  cancelled : Bool
  /-- The keep-set (`matching_accounts[:keep_latest]`). -/
  kept : List Candidate
  /-- The delete-set (`matching_accounts[keep_latest:]`). -/
  deleteSet : List Candidate
  /-- Ids for which a real `delete_project_service_account` call was issued. -/
  restDeleteCalls : List String
  /-- Ids whose deletion was only described (`[DRY RUN]` lines). -/
  describedDeletes : List String
  /-- The reported `deleted_count`. -/
  deletedCount : Nat
  /-- Ids whose delete call raised and was reported as a per-item error. -/
  perItemErrors : List String
  deriving DecidableEq

/-- A `CleanupResult` for the paths that stop before partitioning. -/
def cleanupStopped (exitCode : Option Nat) (noop cancelled : Bool)
    (kept deleteSet : List Candidate) : CleanupResult :=
  { exitCode := exitCode, noop := noop, cancelled := cancelled, kept := kept,
    deleteSet := deleteSet, restDeleteCalls := [], describedDeletes := [],
    deletedCount := 0, perItemErrors := [] }

/-- `cleanup_old_keys` of `rotation.py`, from validated configuration on:
fetch, match, partition into keep/delete sets by `keep_latest` (a Python
`int`, so slicing follows Python's negative-index rules), confirm unless
forced or dry, then delete one by one, counting successes and dry-run
descriptions and reporting each failed call inline. -/
def cleanup_old_keys (hasProjectId hasPrefix : Bool)
    (fetch : Except Unit (List ServiceAccount)) (pfx : List Char)
    (keepLatest : Int) (dryRun force confirmAnswer : Bool)
    (delOut : String → DelOutcome) : CleanupResult :=
  if ¬ hasProjectId then cleanupStopped (some 1) false false [] []
  else if ¬ hasPrefix then cleanupStopped (some 1) false false [] []
  else
    match fetch with
    | .error _ => cleanupStopped (some 1) false false [] []
    | .ok sas =>
      let matching := find_matching_service_accounts sas pfx
      if matching.isEmpty then cleanupStopped none true false [] []
      else if (matching.length : Int) ≤ keepLatest then
        cleanupStopped none true false [] []
      else
        let keep := pySliceTo keepLatest matching
        let del := pySliceFrom keepLatest matching
        if ¬ dryRun ∧ ¬ force ∧ ¬ confirmAnswer then
          cleanupStopped none false true keep del
        else if dryRun then
          { exitCode := none, noop := false, cancelled := false, kept := keep,
            deleteSet := del, restDeleteCalls := [],
            describedDeletes := del.map (·.id),
            deletedCount := del.length, perItemErrors := [] }
        else
          { exitCode := none, noop := false, cancelled := false, kept := keep,
            deleteSet := del, restDeleteCalls := del.map (·.id),
            describedDeletes := [],
            deletedCount :=
              (del.filter (fun c => delOut c.id = .success)).length,
            perItemErrors :=
              (del.filter (fun c => ¬ delOut c.id = .success)).map (·.id) }

/-- The dry-run placeholder credential of `rotation.py`. -/
def dryRunKeyPlaceholder : String := "sk-proj-dummy-key-for-dry-run"

/-- The dry-run placeholder service-account id of `rotation.py`. -/
def dryRunIdPlaceholder : String := "sa_dummy_id"

/-- Observable behaviour of one `rotation create` invocation. -/
structure CreateOpResult where
  /-- `some c`: the process terminated early via `sys.exit(c)`. -/
  exitCode : Option Nat
  /-- The generated name for today. -/
  newName : List Char
  /-- Names for which a real `create_project_service_account` call was issued. -/
  restCreateCalls : List (List Char)
  /-- Names whose creation was only described (`[DRY RUN]` lines). -/
  describedCreates : List (List Char)
  /-- The credential value held after the create step. -/
  apiKeyValue : Option String
  /-- The service-account id held after the create step. -/
  newSaId : Option String
  deriving DecidableEq

/-- `create_rotation_key` of `rotation.py`, from validated configuration
on: fetch and list matches (informational), then create today's resource
unconditionally — described with placeholder identifiers under dry run,
issued for real otherwise, with a failed create call exiting the
process. -/
def create_rotation_key (hasProjectId hasPrefix : Bool)
    (fetch : Except Unit (List ServiceAccount))
    (createRes : Except Unit CreateResp) (pfx : List Char) (fmt : DateFmt)
    (today : PyDate) (dryRun : Bool) : CreateOpResult :=
  let name := newSaName pfx fmt today
  if ¬ hasProjectId then
    { exitCode := some 1, newName := name, restCreateCalls := [],
      describedCreates := [], apiKeyValue := none, newSaId := none }
  else if ¬ hasPrefix then
    { exitCode := some 1, newName := name, restCreateCalls := [],
      describedCreates := [], apiKeyValue := none, newSaId := none }
  else
    match fetch with
    | .error _ =>
      { exitCode := some 1, newName := name, restCreateCalls := [],
        describedCreates := [], apiKeyValue := none, newSaId := none }
    | .ok _ =>
      if dryRun then
        { exitCode := none, newName := name, restCreateCalls := [],
          describedCreates := [name],
          apiKeyValue := some dryRunKeyPlaceholder,
          newSaId := some dryRunIdPlaceholder }
      else
        match createRes with
        | .error _ =>
          { exitCode := some 1, newName := name,
            restCreateCalls := [name], describedCreates := [],
            apiKeyValue := none, newSaId := none }
        | .ok resp =>
          { exitCode := none, newName := name, restCreateCalls := [name],
            describedCreates := [], apiKeyValue := resp.apiKeyValue,
            newSaId := some resp.id }

/-- Observable behaviour of one `rotation execute` invocation. -/
structure ExecuteResult where
  /-- `some c`: the process terminated early via `sys.exit(c)`. -/
  exitCode : Option Nat
  /-- The generated name for today. -/
  newName : List Char
  /-- Creation was skipped because today's name already exists. -/
  skippedCreate : Bool
  /-- Names for which a real create call was issued. -/
  restCreateCalls : List (List Char)
  /-- Names whose creation was only described (`[DRY RUN]` lines). -/
  describedCreates : List (List Char)
  /-- The credential value held after the create step. -/
  apiKeyValue : Option String
  /-- The delete-set `accounts_to_delete`. -/
  deleteSet : List Candidate
  /-- Ids for which a real delete call was issued. -/
  restDeleteCalls : List String
  /-- Ids whose deletion was only described (`[DRY RUN]` lines). -/
  describedDeletes : List String
  /-- Ids whose delete call raised and was reported as a per-item error. -/
  perItemErrors : List String
  deriving DecidableEq

/-- An `ExecuteResult` for the paths that exit before the create step. -/
def executeStopped (code : Nat) (name : List Char) : ExecuteResult :=
  { exitCode := some code, newName := name, skippedCreate := false,
    restCreateCalls := [], describedCreates := [], apiKeyValue := none,
    deleteSet := [], restDeleteCalls := [], describedDeletes := [],
    perItemErrors := [] }

/-- `accounts_to_delete` of `execute_rotation`: with two or more matches
keep the newest and delete the rest; with exactly one match delete it
exactly when its parsed date is strictly before today's date; with none
delete nothing. -/
def executeDeleteSet (matching : List Candidate) (today : PyDate) :
    List Candidate :=
  match matching with
  | [] => []
  | [c] => if dateLt c.date today then [c] else []
  | _ :: b :: rest => b :: rest

/-- `execute_rotation` of `rotation.py`, from validated configuration on:
fetch and match, skip creation when today's name already exists, otherwise
create (dry run describes with placeholders; a failed real create call
exits the process before any deletion), then delete `accounts_to_delete`
one by one, reporting failed delete calls inline and continuing. -/
def execute_rotation (hasProjectId hasPrefix : Bool)
    (fetch : Except Unit (List ServiceAccount))
    (createRes : Except Unit CreateResp) (delOut : String → DelOutcome)
    (pfx : List Char) (fmt : DateFmt) (today : PyDate) (dryRun : Bool) :
    ExecuteResult :=
  let name := newSaName pfx fmt today
  if ¬ hasProjectId then executeStopped 1 name
  else if ¬ hasPrefix then executeStopped 1 name
  else
    match fetch with
    | .error _ => executeStopped 1 name
    | .ok sas =>
      let matching := find_matching_service_accounts sas pfx
      let collides := matching.any fun c => c.name = name
      let createStep :
          Option (Bool × List (List Char) × List (List Char) ×
            Option String) :=
        if collides then some (true, [], [], none)
        else if dryRun then
          some (false, [], [name], some dryRunKeyPlaceholder)
        else
          match createRes with
          | .error _ => none
          | .ok resp => some (false, [name], [], resp.apiKeyValue)
      match createStep with
      | none =>
        { executeStopped 1 name with restCreateCalls := [name] }
      | some (skipped, restCreates, described, key) =>
        let del := executeDeleteSet matching today
        { exitCode := none, newName := name, skippedCreate := skipped,
          restCreateCalls := restCreates, describedCreates := described,
          apiKeyValue := key, deleteSet := del,
          restDeleteCalls := if dryRun then [] else del.map (·.id),
          describedDeletes := if dryRun then del.map (·.id) else [],
          perItemErrors :=
            if dryRun then []
            else (del.filter (fun c => ¬ delOut c.id = .success)).map (·.id) }

/-- One `keys` entry of a batch rotation configuration group. -/
structure KeyCfg where
  name : Option String
  deriving DecidableEq

/-- One `rotations` group of the batch configuration file. -/
structure ProjCfg where
  project_name : String
  project_id : Option String
  keys : List KeyCfg
  deriving DecidableEq

/-- The `--action` choice of `rotation batch`. -/
inductive BatchAction where
  | create
  | cleanup
  deriving DecidableEq

/-- The success label `rotation batch` records for an action. -/
def actionLabel : BatchAction → String
  | .create => "Created"
  | .cleanup => "Cleaned up"

/-- The running tally of `rotation batch`, plus the keys whose processing
helper was actually entered. -/
structure BatchResults where
  success : List String
  failed : List String
  skipped : List String
  attempted : List (String × String)
  deriving DecidableEq

/-- Processing of one key inside a project group: a missing name is a
recorded failure; otherwise the helper runs, a raised exception is caught
and recorded under the key's identity, and a normal return is recorded as
success. -/
def batchKeyStep (pname pid : String)
    (process : String → KeyCfg → Except String Unit) (action : BatchAction)
    (acc : BatchResults) (idx : Nat) (k : KeyCfg) : BatchResults :=
  match k.name with
  | none =>
    { acc with failed :=
        acc.failed ++ [pname ++ " / Key " ++ toString idx ++ ": Missing name"] }
  | some n =>
    match process pid k with
    | .ok _ =>
      { acc with
        success := acc.success ++ [pname ++ " / " ++ n ++ ": " ++ actionLabel action],
        attempted := acc.attempted ++ [(pid, n)] }
    | .error e =>
      { acc with
        failed := acc.failed ++ [pname ++ " / " ++ n ++ ": " ++ e],
        attempted := acc.attempted ++ [(pid, n)] }

/-- The inner key loop of `rotation batch` (`key_idx` counts from 1). -/
def batchKeys (pname pid : String)
    (process : String → KeyCfg → Except String Unit) (action : BatchAction) :
    Nat → List KeyCfg → BatchResults → BatchResults
  | _, [], acc => acc
  | idx, k :: ks, acc =>
    batchKeys pname pid process action (idx + 1) ks
      (batchKeyStep pname pid process action acc idx k)

/-- Processing of one project group: a missing project id is a recorded
failure, a group with no keys is recorded as skipped, otherwise every key
is processed in order. -/
def batchProjStep (process : String → KeyCfg → Except String Unit)
    (action : BatchAction) (acc : BatchResults) (r : ProjCfg) : BatchResults :=
  match r.project_id with
  | none =>
    { acc with failed := acc.failed ++ [r.project_name ++ ": Missing project_id"] }
  | some pid =>
    if r.keys.isEmpty then
      { acc with skipped := acc.skipped ++ [r.project_name ++ ": No keys"] }
    else
      batchKeys r.project_name pid process action 1 r.keys acc

/-- `batch_rotation` of `rotation.py`, from a loaded configuration on:
every group and every key within each group is processed in sequence, and
the final tally holds the per-item success, failed and skipped entries.
`process` is the per-key helper (`_execute_create` or `_execute_cleanup`
through the REST capability), returning normally or raising. -/
def batch_rotation (rotations : List ProjCfg)
    (process : String → KeyCfg → Except String Unit) (action : BatchAction) :
    BatchResults :=
  rotations.foldl (batchProjStep process action)
    { success := [], failed := [], skipped := [], attempted := [] }

/-- Outcome of one wrapped command body: a normal return, a raised
exception caught by `except Exception`, or a process exit
(`SystemExit`, not an `Exception`). -/
inductive CmdOutcome where
  | ok (v : String)
  | exc (msg : String)
  | exits (code : Nat)
  deriving DecidableEq

/-- Environment of the notification post-processing: which channels the
`NotificationManager` constructed (credentials present), and whether a
`send` call to the channel goes through. -/
structure WrapEnv where
  available : String → Bool
  sendOk : Bool

/-- What the single notification phase of a wrapped invocation did. -/
inductive AttemptResult where
  /-- `notifier.send` was called with a message carrying `tag` as its
  success/failure classification (`none`: the generic untagged format);
  `delivered` is whether the transport succeeded. -/
  | sent (tag : Option Bool) (delivered : Bool)
  /-- The availability check failed: a warning, no send. -/
  | unavailableChannel
  /-- The phase raised internally before any send (the `success` local is
  unbound when the command exited) and the error was caught. -/
  | internalError
  deriving DecidableEq

/-- One notification attempt: the resolved channel, recipient, and what
happened. -/
structure NotifyAttempt where
  channel : String
  user : String
  result : AttemptResult
  deriving DecidableEq

/-- Observable behaviour of one invocation of a wrapped command. -/
structure WrapResult where
  /-- A usage error was reported (`--notify`/`--channel` mismatch). -/
  usageError : Bool
  /-- The wrapped command body ran. -/
  cmdInvoked : Bool
  /-- Console writes that happened directly, with no capture. -/
  passthroughOut : List String
  /-- Captured text replayed to the real console (one entry per replay). -/
  replayedOut : List String
  /-- Content of the capture buffer, when capture happened. -/
  captured : Option String
  /-- The `success` local of the wrapper, when it was assigned. -/
  successFlag : Option Bool
  /-- The notification attempts made. -/
  attempts : List NotifyAttempt
  /-- The wrapper's return value (`none` both for Python `None` and for
  paths that never return). -/
  returned : Option String
  /-- An exception propagating out of the wrapper. -/
  propagatedExc : Option String
  /-- A process exit propagating out of the wrapper. -/
  propagatedExit : Option Nat
  deriving DecidableEq

/-- A `WrapResult` for the two usage-error paths: the error is reported
and `ctx.exit(1)` fires before the wrapped command runs. -/
def wrapUsageError : WrapResult :=
  { usageError := true, cmdInvoked := false, passthroughOut := [],
    replayedOut := [], captured := none, successFlag := none, attempts := [],
    returned := none, propagatedExc := none, propagatedExit := some 1 }

/-- `with_notification` of `utils.py`, for one wrapped invocation with the
already-resolved recipient and channel options. With neither option the
command runs as a plain passthrough. With exactly one, a usage error is
reported and the command never runs. With both, stdout and stderr are
redirected to a buffer, the command runs, a raised exception is caught
(appending its text to the buffer and classifying the run as failed);
the original streams are always restored, the buffer is printed to the
real console exactly once, and one notification phase follows: a warning
with no send when the channel is unavailable, otherwise one `send` whose
message carries the success flag for the mattermost format and no tag for
the generic format; if the command exited the process, the `success` and
`result` locals were never assigned, so the phase raises internally, is
caught, and no send happens. Exceptions of the command are swallowed
(`None` is returned); a process exit propagates. -/
def with_notification (notifyUser notifyChannel : Option String)
    (env : WrapEnv) (cmdOut : String) (outcome : CmdOutcome) : WrapResult :=
  match notifyUser, notifyChannel with
  | some _, none => wrapUsageError
  | none, some _ => wrapUsageError
  | none, none =>
    { usageError := false, cmdInvoked := true, passthroughOut := [cmdOut],
      replayedOut := [], captured := none, successFlag := none,
      attempts := [],
      returned := match outcome with | .ok v => some v | _ => none,
      propagatedExc := match outcome with | .exc m => some m | _ => none,
      propagatedExit := match outcome with | .exits c => some c | _ => none }
  | some u, some ch =>
    let capturedText : String :=
      match outcome with
      | .ok _ => cmdOut
      | .exc m => cmdOut ++ "\nError: " ++ m ++ "\n"
      | .exits _ => cmdOut
    let successVar : Option Bool :=
      match outcome with
      | .ok _ => some true
      | .exc _ => some false
      | .exits _ => none
    let attemptRes : AttemptResult :=
      if ¬ env.available ch then .unavailableChannel
      else if ch = "mattermost" then
        match successVar with
        | some s => .sent (some s) env.sendOk
        | none => .internalError
      else .sent none env.sendOk
    { usageError := false, cmdInvoked := true, passthroughOut := [],
      replayedOut := [capturedText], captured := some capturedText,
      successFlag := successVar,
      attempts := [{ channel := ch, user := u, result := attemptRes }],
      returned := match outcome with | .ok v => some v | _ => none,
      propagatedExc := none,
      propagatedExit := match outcome with | .exits c => some c | _ => none }

/-- Whether a name remainder has the lexical shape `\d{4}-\d{2}-\d{2}`
(the full-date pattern after the prefix and its dash). -/
def fullShape : List Char → Bool
  | [c1, c2, c3, c4, h1, c5, c6, h2, c7, c8] =>
    c1.isDigit && c2.isDigit && c3.isDigit && c4.isDigit && h1 == '-' &&
      c5.isDigit && c6.isDigit && h2 == '-' && c7.isDigit && c8.isDigit
  | _ => false

/-- Whether a name remainder has the lexical shape `\d{2}-\d{2}`
(the short-date pattern after the prefix and its dash). -/
def shortShape : List Char → Bool
  | [c1, c2, h1, c3, c4] =>
    c1.isDigit && c2.isDigit && h1 == '-' && c3.isDigit && c4.isDigit
  | _ => false

theorem matchFullDate_shape {r : List Char} {v : Nat × Nat × Nat}
    (h : matchFullDate r = some v) : fullShape r = true := by
  unfold matchFullDate at h
  split at h
  · split at h
    · rename_i hg
      simpa [fullShape] using hg
    · exact absurd h (by simp)
  · exact absurd h (by simp)

theorem matchShortDate_shape {r : List Char} {v : Nat × Nat}
    (h : matchShortDate r = some v) : shortShape r = true := by
  unfold matchShortDate at h
  split at h
  · split at h
    · rename_i hg
      simpa [shortShape] using hg
    · exact absurd h (by simp)
  · exact absurd h (by simp)

theorem take_append_self (a b : List Char) : (a ++ b).take a.length = a := by
  induction a with
  | nil => simp
  | cons x xs ih => simp [List.take, ih]

theorem drop_append_self (a b : List Char) : (a ++ b).drop a.length = b := by
  induction a with
  | nil => simp
  | cons x xs ih => simp [List.drop, ih]

theorem parse_at_built_name (pfx rest : List Char) :
    parse_service_account_date (pfx ++ '-' :: rest) pfx =
      (match matchFullDate rest with
        | some (y, m, d) => mkDatetime y m d
        | none =>
          match matchShortDate rest with
          | some (yy, mm) => mkDatetime (2000 + yy) mm 1
          | none => none) := by
  have h1 : pfx ++ '-' :: rest = (pfx ++ ['-']) ++ rest := by simp
  have hl : (pfx ++ ['-']).length = pfx.length + 1 := by simp
  unfold parse_service_account_date
  rw [h1, ← hl, take_append_self, drop_append_self]
  simp

theorem digitVal_le {c : Char} (h : c.isDigit = true) : digitVal c ≤ 9 := by
  simp only [Char.isDigit, Bool.and_eq_true, decide_eq_true_eq, ge_iff_le] at h
  obtain ⟨h1, h2⟩ := h
  rw [UInt32.le_def] at h1 h2
  rw [BitVec.le_def] at h1 h2
  have e1 : (UInt32.toBitVec 48).toNat = 48 := rfl
  have e2 : (UInt32.toBitVec 57).toNat = 57 := rfl
  rw [e1] at h1
  rw [e2] at h2
  simp only [digitVal, Char.toNat, UInt32.toNat]
  omega

theorem val2_le {c1 c2 : Char} (h1 : c1.isDigit = true)
    (h2 : c2.isDigit = true) : val2 c1 c2 ≤ 99 := by
  have := digitVal_le h1
  have := digitVal_le h2
  simp only [val2]
  omega

theorem daysInMonth_ge_28 (y m : Nat) : 28 ≤ daysInMonth y m := by
  unfold daysInMonth
  split
  · split <;> omega
  · split <;> omega

/-- C6 counterexample: the claim states that for every name of the form
`pfx-YY-MM` the parser returns the first of month MM in year 2000+YY; for
`api-24-13` that would be `some ⟨2024, 13, 1⟩`, but the code's
`datetime(2024, 13, 1)` raises `ValueError` and the parser returns
`None`. -/
theorem c6_counterexample :
    parse_service_account_date
        ['a', 'p', 'i', '-', '2', '4', '-', '1', '3'] ['a', 'p', 'i'] =
      none ∧
    ¬ parse_service_account_date
        ['a', 'p', 'i', '-', '2', '4', '-', '1', '3'] ['a', 'p', 'i'] =
      some ⟨2024, 13, 1⟩ := by
  constructor
  · decide
  · decide

/-- C6 (amended): for every prefix, the Identifier Date Parser returns
exactly the embedded date for names of the form `prefix-YYYY-MM-DD` with a
valid calendar date; returns no-match (not an error) for such names with
invalid calendar values; returns the first day of month MM in year 2000+YY
for names of the form `prefix-YY-MM` whose month is a valid month (01-12),
while an invalid month again yields no-match; and returns no-match for
every name conforming to neither pattern. -/
theorem c6_date_parser_amended :
    (∀ (pfx : List Char) (c1 c2 c3 c4 c5 c6 c7 c8 : Char),
      c1.isDigit = true → c2.isDigit = true → c3.isDigit = true →
      c4.isDigit = true → c5.isDigit = true → c6.isDigit = true →
      c7.isDigit = true → c8.isDigit = true →
      isValidDate (val4 c1 c2 c3 c4) (val2 c5 c6) (val2 c7 c8) = true →
      parse_service_account_date
          (pfx ++ '-' :: [c1, c2, c3, c4, '-', c5, c6, '-', c7, c8]) pfx =
        some ⟨val4 c1 c2 c3 c4, val2 c5 c6, val2 c7 c8⟩) ∧
    (∀ (pfx : List Char) (c1 c2 c3 c4 c5 c6 c7 c8 : Char),
      c1.isDigit = true → c2.isDigit = true → c3.isDigit = true →
      c4.isDigit = true → c5.isDigit = true → c6.isDigit = true →
      c7.isDigit = true → c8.isDigit = true →
      isValidDate (val4 c1 c2 c3 c4) (val2 c5 c6) (val2 c7 c8) = false →
      parse_service_account_date
          (pfx ++ '-' :: [c1, c2, c3, c4, '-', c5, c6, '-', c7, c8]) pfx =
        none) ∧
    (∀ (pfx : List Char) (c1 c2 c3 c4 : Char),
      c1.isDigit = true → c2.isDigit = true → c3.isDigit = true →
      c4.isDigit = true → 1 ≤ val2 c3 c4 → val2 c3 c4 ≤ 12 →
      parse_service_account_date (pfx ++ '-' :: [c1, c2, '-', c3, c4]) pfx =
        some ⟨2000 + val2 c1 c2, val2 c3 c4, 1⟩) ∧
    (∀ (pfx : List Char) (c1 c2 c3 c4 : Char),
      c1.isDigit = true → c2.isDigit = true → c3.isDigit = true →
      c4.isDigit = true → (val2 c3 c4 < 1 ∨ 12 < val2 c3 c4) →
      parse_service_account_date (pfx ++ '-' :: [c1, c2, '-', c3, c4]) pfx =
        none) ∧
    (∀ (name pfx : List Char) (d : PyDate),
      parse_service_account_date name pfx = some d →
      name.take (pfx.length + 1) = pfx ++ ['-'] ∧
      (fullShape (name.drop (pfx.length + 1)) = true ∨
        shortShape (name.drop (pfx.length + 1)) = true)) := by
  refine ⟨?_, ?_, ?_, ?_, ?_⟩
  · intro pfx c1 c2 c3 c4 c5 c6 c7 c8 h1 h2 h3 h4 h5 h6 h7 h8 hv
    rw [parse_at_built_name]
    simp [matchFullDate, h1, h2, h3, h4, h5, h6, h7, h8, mkDatetime, hv]
  · intro pfx c1 c2 c3 c4 c5 c6 c7 c8 h1 h2 h3 h4 h5 h6 h7 h8 hv
    rw [parse_at_built_name]
    simp [matchFullDate, h1, h2, h3, h4, h5, h6, h7, h8, mkDatetime, hv]
  · intro pfx c1 c2 c3 c4 h1 h2 h3 h4 hm1 hm2
    rw [parse_at_built_name]
    have hv : isValidDate (2000 + val2 c1 c2) (val2 c3 c4) 1 = true := by
      have hy := val2_le h1 h2
      have hd := daysInMonth_ge_28 (2000 + val2 c1 c2) (val2 c3 c4)
      simp only [isValidDate, Bool.and_eq_true, decide_eq_true_eq]
      omega
    simp [matchFullDate, matchShortDate, h1, h2, h3, h4, mkDatetime, hv]
  · intro pfx c1 c2 c3 c4 h1 h2 h3 h4 hm
    rw [parse_at_built_name]
    have hv : isValidDate (2000 + val2 c1 c2) (val2 c3 c4) 1 = false := by
      rcases Bool.eq_false_or_eq_true
          (isValidDate (2000 + val2 c1 c2) (val2 c3 c4) 1) with h | h
      · exfalso
        simp only [isValidDate, Bool.and_eq_true, decide_eq_true_eq] at h
        omega
      · exact h
    simp [matchFullDate, matchShortDate, h1, h2, h3, h4, mkDatetime, hv]
  · intro name pfx d h
    unfold parse_service_account_date at h
    split at h
    · rename_i htake
      refine ⟨htake, ?_⟩
      cases hm : matchFullDate (name.drop (pfx.length + 1)) with
      | some v => exact Or.inl (matchFullDate_shape hm)
      | none =>
        rw [hm] at h
        cases hs : matchShortDate (name.drop (pfx.length + 1)) with
        | some v => exact Or.inr (matchShortDate_shape hs)
        | none =>
          rw [hs] at h
          exact absurd h (by simp)
    · exact absurd h (by simp)

/-- Witness for C6: the amended theorem applied to concrete names for each
of its five parts. -/
theorem c6_date_parser_amended_witness :
    parse_service_account_date
        (['a', 'p', 'i'] ++ '-' ::
          ['2', '0', '2', '4', '-', '1', '1', '-', '1', '3']) ['a', 'p', 'i'] =
      some ⟨2024, 11, 13⟩ ∧
    parse_service_account_date
        (['a', 'p', 'i'] ++ '-' ::
          ['2', '0', '2', '4', '-', '1', '3', '-', '4', '0']) ['a', 'p', 'i'] =
      none ∧
    parse_service_account_date
        (['a', 'p', 'i'] ++ '-' :: ['2', '4', '-', '1', '1']) ['a', 'p', 'i'] =
      some ⟨2024, 11, 1⟩ ∧
    parse_service_account_date
        (['a', 'p', 'i'] ++ '-' :: ['2', '4', '-', '1', '3']) ['a', 'p', 'i'] =
      none ∧
    (['a', 'p', 'i', '-', '2', '4', '-', '1', '1'].take 4 =
        ['a', 'p', 'i'] ++ ['-'] ∧
      (fullShape (['a', 'p', 'i', '-', '2', '4', '-', '1', '1'].drop 4) = true ∨
        shortShape (['a', 'p', 'i', '-', '2', '4', '-', '1', '1'].drop 4) =
          true)) :=
  ⟨c6_date_parser_amended.1 ['a', 'p', 'i'] '2' '0' '2' '4' '1' '1' '1' '3'
      (by decide) (by decide) (by decide) (by decide) (by decide) (by decide)
      (by decide) (by decide) (by decide),
    c6_date_parser_amended.2.1 ['a', 'p', 'i'] '2' '0' '2' '4' '1' '3' '4' '0'
      (by decide) (by decide) (by decide) (by decide) (by decide) (by decide)
      (by decide) (by decide) (by decide),
    c6_date_parser_amended.2.2.1 ['a', 'p', 'i'] '2' '4' '1' '1'
      (by decide) (by decide) (by decide) (by decide) (by decide) (by decide),
    c6_date_parser_amended.2.2.2.1 ['a', 'p', 'i'] '2' '4' '1' '3'
      (by decide) (by decide) (by decide) (by decide) (Or.inr (by decide)),
    c6_date_parser_amended.2.2.2.2
      ['a', 'p', 'i', '-', '2', '4', '-', '1', '1'] ['a', 'p', 'i']
      ⟨2024, 11, 1⟩ (by decide)⟩

/-- C7: for every input list of remote resources and every prefix, the
Rotation Set Resolver (a pure function in this embedding, as in the
source) includes only candidates whose name parses to their recorded date
for the prefix (so every non-matching resource is excluded), returns them
sorted by parsed date descending (newest first), and preserves the input
relative order of candidates with equal parsed dates. -/
theorem c7_rotation_set_resolver (sas : List ServiceAccount)
    (pfx : List Char) :
    (∀ c ∈ find_matching_service_accounts sas pfx,
      parse_service_account_date c.name pfx = some c.date) ∧
    (find_matching_service_accounts sas pfx).Pairwise candGe ∧
    (∀ d : PyDate,
      (find_matching_service_accounts sas pfx).filter (fun c => c.date = d) =
        (matchingCandidates sas pfx).filter (fun c => c.date = d)) := by
  refine ⟨?_, sortByDateDesc_sorted _, fun d => sortByDateDesc_stable _ d⟩
  intro c hc
  have hc2 : c ∈ matchingCandidates sas pfx :=
    (sortByDateDesc_perm _).mem_iff.mp hc
  rcases List.mem_filterMap.mp hc2 with ⟨sa, _, hmap⟩
  rcases Option.map_eq_some'.mp hmap with ⟨d0, hparse, hbuild⟩
  rw [← hbuild]
  exact hparse

/-- Witness for C7: the resolver's membership part applied to a concrete
one-resource list. -/
theorem c7_rotation_set_resolver_witness :
    parse_service_account_date ['a', 'p', 'i', '-', '2', '4', '-', '1', '1']
        ['a', 'p', 'i'] =
      some ⟨2024, 11, 1⟩ :=
  (c7_rotation_set_resolver
      [{ id := "sa_1", name := ['a', 'p', 'i', '-', '2', '4', '-', '1', '1'],
          created_at := 100, role := "member" }] ['a', 'p', 'i']).1
    { id := "sa_1", name := ['a', 'p', 'i', '-', '2', '4', '-', '1', '1'],
      date := ⟨2024, 11, 1⟩, created_at := 100, role := "member" }
    (by decide)

/-- C5 counterexample: the claim quantifies over every integer
`keep_latest`. With `keep_latest = -1` on a resolved set of size 2 the
claim demands `n - k = 3` deletions; Python's negative slicing makes the
code partition `m[:-1]` / `m[-1:]` and delete exactly one item. -/
theorem c5_counterexample :
    (cleanup_old_keys true true
          (.ok
            [{ id := "sa_1", name := ['a', 'p', 'i', '-', '2', '4', '-', '1', '1'],
                created_at := 200, role := "member" },
              { id := "sa_2", name := ['a', 'p', 'i', '-', '2', '4', '-', '1', '0'],
                created_at := 100, role := "member" }])
          ['a', 'p', 'i'] (-1) false true false
          (fun _ => .success)).restDeleteCalls.length = 1 ∧
    ((find_matching_service_accounts
          [{ id := "sa_1", name := ['a', 'p', 'i', '-', '2', '4', '-', '1', '1'],
              created_at := 200, role := "member" },
            { id := "sa_2", name := ['a', 'p', 'i', '-', '2', '4', '-', '1', '0'],
              created_at := 100, role := "member" }]
          ['a', 'p', 'i']).length : Int) - (-1) = 3 ∧
    ¬ (1 : Int) = 3 := by
  refine ⟨by decide, by decide, by decide⟩

/-- C5 (amended): for every integer `keep_latest = k` with `0 ≤ k` and
every resolved matching set of size `n` (when the operation proceeds:
forced, confirmed, or dry): if `n ≤ k` Cleanup reports a no-op and issues
zero deletions; if `n > k` the keep/delete partition splits the
newest-first set after its first `k` elements, so exactly `n - k`
deletions are issued (or described under dry run), every deleted item is
at most as new as every kept item, and exactly the `k` newest are kept.
For negative `k` the code follows Python's negative slicing instead
(see the counterexample). -/
theorem c5_cleanup_keep_latest_amended (sas : List ServiceAccount)
    (pfx : List Char) (k : Int) (dryRun force confirm : Bool)
    (delOut : String → DelOutcome) (m : List Candidate) (r : CleanupResult)
    (hm : m = find_matching_service_accounts sas pfx)
    (hr : r = cleanup_old_keys true true (.ok sas) pfx k dryRun force confirm
      delOut)
    (hk : 0 ≤ k) (hgo : force = true ∨ confirm = true ∨ dryRun = true) :
    ((m.length : Int) ≤ k →
      r.noop = true ∧ r.deleteSet = [] ∧ r.restDeleteCalls = [] ∧
      r.describedDeletes = [] ∧ r.deletedCount = 0) ∧
    (k < (m.length : Int) →
      r.deleteSet.length = m.length - k.toNat ∧
      r.kept.length = k.toNat ∧
      r.kept ++ r.deleteSet = m ∧
      (∀ a ∈ r.deleteSet, ∀ b ∈ r.kept, dateLe a.date b.date = true) ∧
      r.restDeleteCalls.length + r.describedDeletes.length =
        m.length - k.toNat ∧
      r.noop = false) := by
  subst hm hr
  constructor
  · intro hle
    by_cases he : (find_matching_service_accounts sas pfx).isEmpty
    · simp [cleanup_old_keys, he, cleanupStopped]
    · simp [cleanup_old_keys, he, hle, cleanupStopped]
  · intro hgt
    have hlen : k.toNat < (find_matching_service_accounts sas pfx).length := by
      omega
    have he : (find_matching_service_accounts sas pfx).isEmpty = false := by
      rcases hx : find_matching_service_accounts sas pfx with _ | ⟨a, t⟩
      · rw [hx] at hlen; simp at hlen
      · rfl
    have hnle : ¬ ((find_matching_service_accounts sas pfx).length : Int) ≤ k := by
      omega
    have hsor := sortByDateDesc_sorted (matchingCandidates sas pfx)
    have hp :
        ((find_matching_service_accounts sas pfx).take k.toNat ++
          (find_matching_service_accounts sas pfx).drop k.toNat).Pairwise
          candGe := by
      rw [List.take_append_drop]
      exact hsor
    have hrel := (List.pairwise_append.mp hp).2.2
    have hgoals :
        ∀ a ∈ (find_matching_service_accounts sas pfx).drop k.toNat,
          ∀ b ∈ (find_matching_service_accounts sas pfx).take k.toNat,
            dateLe a.date b.date = true := by
      intro a ha b hb
      exact hrel b hb a ha
    by_cases hd : dryRun = true
    · simp [cleanup_old_keys, he, hnle, hd, pySliceTo, pySliceFrom, hk,
        Nat.min_eq_left (le_of_lt hlen), List.take_append_drop]
      exact hgoals
    · have hfc : ¬ (force = false ∧ confirm = false) := by
        rintro ⟨hf, hc⟩
        rcases hgo with h | h | h
        · rw [h] at hf; exact absurd hf (by simp)
        · rw [h] at hc; exact absurd hc (by simp)
        · exact hd h
      simp [cleanup_old_keys, he, hnle, hd, hfc, pySliceTo, pySliceFrom, hk,
        Nat.min_eq_left (le_of_lt hlen), List.take_append_drop]
      exact hgoals

/-- Witness for C5: the amended theorem applied to a forced cleanup with
`keep_latest = 1` on a two-element resolved set. -/
theorem c5_cleanup_keep_latest_amended_witness :
    (cleanup_old_keys true true
          (.ok
            [{ id := "sa_1", name := ['k', 'y', '-', '2', '4', '-', '1', '1'],
                created_at := 200, role := "member" },
              { id := "sa_2", name := ['k', 'y', '-', '2', '4', '-', '1', '0'],
                created_at := 100, role := "member" }])
          ['k', 'y'] 1 false true false
          (fun _ => .success)).deleteSet.length = 1 ∧
    (cleanup_old_keys true true
          (.ok
            [{ id := "sa_1", name := ['k', 'y', '-', '2', '4', '-', '1', '1'],
                created_at := 200, role := "member" },
              { id := "sa_2", name := ['k', 'y', '-', '2', '4', '-', '1', '0'],
                created_at := 100, role := "member" }])
          ['k', 'y'] 1 false true false (fun _ => .success)).kept.length = 1 := by
  have h :=
    (c5_cleanup_keep_latest_amended
        [{ id := "sa_1", name := ['k', 'y', '-', '2', '4', '-', '1', '1'],
            created_at := 200, role := "member" },
          { id := "sa_2", name := ['k', 'y', '-', '2', '4', '-', '1', '0'],
            created_at := 100, role := "member" }]
        ['k', 'y'] 1 false true false (fun _ => .success) _ _ rfl rfl
        (by decide) (Or.inl rfl)).2 (by decide)
  exact ⟨h.1, h.2.1⟩

/-- C3 counterexample: a NotFound failure on delete is caught by the same
`except` as any other delete failure, reported as a per-item error and not
counted, whereas the claim says it is counted and reported as successfully
removed (here: `deleted_count = 1` and no per-item error). -/
theorem c3_counterexample :
    (cleanup_old_keys true true
          (.ok
            [{ id := "sa_1", name := ['k', 'y', '-', '2', '4', '-', '1', '1'],
                created_at := 200, role := "member" },
              { id := "sa_2", name := ['k', 'y', '-', '2', '4', '-', '1', '0'],
                created_at := 100, role := "member" }])
          ['k', 'y'] 1 false true false
          (fun i => if i = "sa_2" then .notFound else .success)).deletedCount =
      0 ∧
    (cleanup_old_keys true true
          (.ok
            [{ id := "sa_1", name := ['k', 'y', '-', '2', '4', '-', '1', '1'],
                created_at := 200, role := "member" },
              { id := "sa_2", name := ['k', 'y', '-', '2', '4', '-', '1', '0'],
                created_at := 100, role := "member" }])
          ['k', 'y'] 1 false true false
          (fun i => if i = "sa_2" then .notFound else .success)).perItemErrors =
      ["sa_2"] ∧
    ¬ ((0 : Nat) = 1 ∧ (["sa_2"] : List String) = []) := by
  refine ⟨by decide, by decide, by decide⟩

/-- C3 (amended): a delete call during Cleanup that fails with a NotFound
typed failure is treated like every other delete failure: the item is
reported as a per-item error and is not counted as removed; the remaining
delete-set members are still all attempted (the loop continues). -/
theorem c3_notfound_delete_amended (sas : List ServiceAccount)
    (pfx : List Char) (k : Int) (force confirm : Bool)
    (delOut : String → DelOutcome) (r : CleanupResult)
    (hr : r = cleanup_old_keys true true (.ok sas) pfx k false force confirm
      delOut)
    (hgo : force = true ∨ confirm = true) :
    r.restDeleteCalls = r.deleteSet.map (·.id) ∧
    r.perItemErrors =
      (r.deleteSet.filter (fun c => ¬ delOut c.id = .success)).map (·.id) ∧
    r.deletedCount =
      (r.deleteSet.filter (fun c => delOut c.id = .success)).length := by
  subst hr
  have hfc : ¬ (force = false ∧ confirm = false) := by
    rintro ⟨hf, hc⟩
    rcases hgo with h | h
    · rw [h] at hf; exact absurd hf (by simp)
    · rw [h] at hc; exact absurd hc (by simp)
  by_cases he : (find_matching_service_accounts sas pfx).isEmpty
  · simp [cleanup_old_keys, he, cleanupStopped]
  · by_cases hle :
      ((find_matching_service_accounts sas pfx).length : Int) ≤ k
    · simp [cleanup_old_keys, he, hle, cleanupStopped]
    · simp [cleanup_old_keys, he, hle, hfc, cleanupStopped]

/-- Witness for C3: the amended theorem applied to a forced cleanup where
the single delete-set member's delete call returns NotFound. -/
theorem c3_notfound_delete_amended_witness :
    (cleanup_old_keys true true
          (.ok
            [{ id := "sa_1", name := ['k', 'y', '-', '2', '4', '-', '1', '1'],
                created_at := 200, role := "member" },
              { id := "sa_2", name := ['k', 'y', '-', '2', '4', '-', '1', '0'],
                created_at := 100, role := "member" }])
          ['k', 'y'] 1 false true false
          (fun i =>
            if i = "sa_2" then DelOutcome.notFound
            else DelOutcome.success)).restDeleteCalls = ["sa_2"] ∧
    (cleanup_old_keys true true
          (.ok
            [{ id := "sa_1", name := ['k', 'y', '-', '2', '4', '-', '1', '1'],
                created_at := 200, role := "member" },
              { id := "sa_2", name := ['k', 'y', '-', '2', '4', '-', '1', '0'],
                created_at := 100, role := "member" }])
          ['k', 'y'] 1 false true false
          (fun i =>
            if i = "sa_2" then DelOutcome.notFound
            else DelOutcome.success)).deletedCount = 0 := by
  have h :=
    c3_notfound_delete_amended
      [{ id := "sa_1", name := ['k', 'y', '-', '2', '4', '-', '1', '1'],
          created_at := 200, role := "member" },
        { id := "sa_2", name := ['k', 'y', '-', '2', '4', '-', '1', '0'],
          created_at := 100, role := "member" }]
      ['k', 'y'] 1 true false
      (fun i => if i = "sa_2" then DelOutcome.notFound else DelOutcome.success)
      _ rfl (Or.inl rfl)
  exact ⟨h.1, h.2.2⟩

/-- C1, evaluated at the failing input: format `YY-MM`, today 2024-11-13,
and a single pre-existing match named exactly today's expected name
`api-24-11`. Creation is skipped (name collision), yet the code's
single-match rule compares the parsed date 2024-11-01 with today's date
and deletes the sole match: a delete call for `sa_1` is issued while no
create call or dry-run description happens, leaving zero keys. -/
theorem c1_execute_collision_failing_input :
    (execute_rotation true true
          (.ok
            [{ id := "sa_1", name := ['a', 'p', 'i', '-', '2', '4', '-', '1', '1'],
                created_at := 100, role := "member" }])
          (.ok { id := "sa_new", apiKeyValue := some "sk-x" })
          (fun _ => .success) ['a', 'p', 'i'] .yymm ⟨2024, 11, 13⟩
          false).skippedCreate = true ∧
    (execute_rotation true true
          (.ok
            [{ id := "sa_1", name := ['a', 'p', 'i', '-', '2', '4', '-', '1', '1'],
                created_at := 100, role := "member" }])
          (.ok { id := "sa_new", apiKeyValue := some "sk-x" })
          (fun _ => .success) ['a', 'p', 'i'] .yymm ⟨2024, 11, 13⟩
          false).restCreateCalls = [] ∧
    (execute_rotation true true
          (.ok
            [{ id := "sa_1", name := ['a', 'p', 'i', '-', '2', '4', '-', '1', '1'],
                created_at := 100, role := "member" }])
          (.ok { id := "sa_new", apiKeyValue := some "sk-x" })
          (fun _ => .success) ['a', 'p', 'i'] .yymm ⟨2024, 11, 13⟩
          false).describedCreates = [] ∧
    (execute_rotation true true
          (.ok
            [{ id := "sa_1", name := ['a', 'p', 'i', '-', '2', '4', '-', '1', '1'],
                created_at := 100, role := "member" }])
          (.ok { id := "sa_new", apiKeyValue := some "sk-x" })
          (fun _ => .success) ['a', 'p', 'i'] .yymm ⟨2024, 11, 13⟩
          false).restDeleteCalls = ["sa_1"] := by
  refine ⟨by decide, by decide, by decide, by decide⟩

/-- C2 counterexample: with both required parameters present and a
successful initial fetch, a failed (non-dry-run) create call makes
`create_rotation_key` call `sys.exit(1)`: a failure path other than a
missing parameter or a fetch failure produces a non-zero exit, contrary to
the claim. -/
theorem c2_counterexample :
    (create_rotation_key true true (.ok []) (.error ()) ['k', 'y'] .yymm
        ⟨2024, 11, 13⟩ false).exitCode = some 1 ∧
    ¬ (create_rotation_key true true (.ok []) (.error ()) ['k', 'y'] .yymm
        ⟨2024, 11, 13⟩ false).exitCode = none := by
  refine ⟨by decide, by decide⟩

/-- C2 (amended): outside of batch mode, from a loaded configuration on,
an operation's exit status is 0 exactly when it completes; it is non-zero
(always 1) exactly when a required parameter (project id or prefix) is
missing, when the initial fetch fails before any mutation, or when a real
(non-dry-run, actually attempted) create call fails. Per-item delete
failures never affect the exit status (the delete oracle does not appear
in any right-hand side). -/
theorem c2_exit_status_amended :
    (∀ (hP hPfx : Bool) (fetch : Except Unit (List ServiceAccount))
        (createRes : Except Unit CreateResp) (pfx : List Char) (fmt : DateFmt)
        (today : PyDate) (dryRun : Bool),
      (create_rotation_key hP hPfx fetch createRes pfx fmt today
          dryRun).exitCode = some 1 ↔
        (hP = false ∨ hPfx = false ∨ fetch = .error () ∨
          (dryRun = false ∧ createRes = .error ()))) ∧
    (∀ (hP hPfx : Bool) (fetch : Except Unit (List ServiceAccount))
        (pfx : List Char) (k : Int) (dryRun force confirm : Bool)
        (delOut : String → DelOutcome),
      (cleanup_old_keys hP hPfx fetch pfx k dryRun force confirm
          delOut).exitCode = some 1 ↔
        (hP = false ∨ hPfx = false ∨ fetch = .error ())) ∧
    (∀ (hP hPfx : Bool) (fetch : Except Unit (List ServiceAccount))
        (createRes : Except Unit CreateResp) (delOut : String → DelOutcome)
        (pfx : List Char) (fmt : DateFmt) (today : PyDate) (dryRun : Bool),
      (execute_rotation hP hPfx fetch createRes delOut pfx fmt today
          dryRun).exitCode = some 1 ↔
        (hP = false ∨ hPfx = false ∨
          match fetch with
          | .error _ => True
          | .ok sas =>
            dryRun = false ∧ createRes = .error () ∧
              (find_matching_service_accounts sas pfx).any
                  (fun c => c.name = newSaName pfx fmt today) = false)) := by
  refine ⟨?_, ?_, ?_⟩
  · intro hP hPfx fetch createRes pfx fmt today dryRun
    cases hP with
    | false => simp [create_rotation_key]
    | true =>
      cases hPfx with
      | false => simp [create_rotation_key]
      | true =>
        cases fetch with
        | error u => cases u; simp [create_rotation_key]
        | ok sas =>
          cases dryRun with
          | true => simp [create_rotation_key]
          | false =>
            cases createRes with
            | error u => cases u; simp [create_rotation_key]
            | ok resp => simp [create_rotation_key]
  · intro hP hPfx fetch pfx k dryRun force confirm delOut
    cases hP with
    | false => simp [cleanup_old_keys, cleanupStopped]
    | true =>
      cases hPfx with
      | false => simp [cleanup_old_keys, cleanupStopped]
      | true =>
        cases fetch with
        | error u => cases u; simp [cleanup_old_keys, cleanupStopped]
        | ok sas =>
          by_cases he : (find_matching_service_accounts sas pfx).isEmpty = true
          · simp [cleanup_old_keys, he, cleanupStopped]
          · by_cases hle :
              ((find_matching_service_accounts sas pfx).length : Int) ≤ k
            · simp [cleanup_old_keys, he, hle, cleanupStopped]
            · by_cases hpr : ¬ dryRun = true ∧ ¬ force = true ∧ ¬ confirm = true
              · simp [cleanup_old_keys, he, hle, hpr, cleanupStopped]
              · by_cases hd : dryRun = true
                · simp [cleanup_old_keys, he, hle, hpr, hd, cleanupStopped]
                · simp only [Classical.not_and_iff_or_not_not, not_not] at hpr
                  simp [cleanup_old_keys, he, hle, hd, cleanupStopped, hpr]
                  split <;> simp
  · intro hP hPfx fetch createRes delOut pfx fmt today dryRun
    cases hP with
    | false => simp [execute_rotation, executeStopped]
    | true =>
      cases hPfx with
      | false => simp [execute_rotation, executeStopped]
      | true =>
        cases fetch with
        | error u => cases u; simp [execute_rotation, executeStopped]
        | ok sas =>
          by_cases hcol :
            (find_matching_service_accounts sas pfx).any
                (fun c => c.name = newSaName pfx fmt today) = true
          · simp [execute_rotation, hcol]
          · rw [Bool.not_eq_true] at hcol
            cases dryRun with
            | true => simp [execute_rotation, hcol]
            | false =>
              cases createRes with
              | error u => cases u; simp [execute_rotation, hcol, executeStopped]
              | ok resp => simp [execute_rotation, hcol]

/-- C8: with `dry_run` set, Create, Cleanup and Execute issue zero create
calls and zero delete calls to the REST capability, whatever the
environment; the create step is replaced by a description of today's name
and placeholder identifiers (the dummy credential value and dummy
service-account id). -/
theorem c8_dry_run_zero_mutations :
    (∀ (hP hPfx : Bool) (fetch : Except Unit (List ServiceAccount))
        (createRes : Except Unit CreateResp) (pfx : List Char) (fmt : DateFmt)
        (today : PyDate),
      (create_rotation_key hP hPfx fetch createRes pfx fmt today
          true).restCreateCalls = []) ∧
    (∀ (sas : List ServiceAccount) (createRes : Except Unit CreateResp)
        (pfx : List Char) (fmt : DateFmt) (today : PyDate),
      (create_rotation_key true true (.ok sas) createRes pfx fmt today
          true).apiKeyValue = some dryRunKeyPlaceholder ∧
      (create_rotation_key true true (.ok sas) createRes pfx fmt today
          true).newSaId = some dryRunIdPlaceholder ∧
      (create_rotation_key true true (.ok sas) createRes pfx fmt today
          true).describedCreates = [newSaName pfx fmt today]) ∧
    (∀ (hP hPfx : Bool) (fetch : Except Unit (List ServiceAccount))
        (pfx : List Char) (k : Int) (force confirm : Bool)
        (delOut : String → DelOutcome),
      (cleanup_old_keys hP hPfx fetch pfx k true force confirm
          delOut).restDeleteCalls = []) ∧
    (∀ (hP hPfx : Bool) (fetch : Except Unit (List ServiceAccount))
        (createRes : Except Unit CreateResp) (delOut : String → DelOutcome)
        (pfx : List Char) (fmt : DateFmt) (today : PyDate),
      (execute_rotation hP hPfx fetch createRes delOut pfx fmt today
          true).restCreateCalls = [] ∧
      (execute_rotation hP hPfx fetch createRes delOut pfx fmt today
          true).restDeleteCalls = []) := by
  refine ⟨?_, ?_, ?_, ?_⟩
  · intro hP hPfx fetch createRes pfx fmt today
    cases hP with
    | false => simp [create_rotation_key]
    | true =>
      cases hPfx with
      | false => simp [create_rotation_key]
      | true =>
        cases fetch with
        | error u => simp [create_rotation_key]
        | ok sas => simp [create_rotation_key]
  · intro sas createRes pfx fmt today
    refine ⟨by simp [create_rotation_key], by simp [create_rotation_key],
      by simp [create_rotation_key]⟩
  · intro hP hPfx fetch pfx k force confirm delOut
    cases hP with
    | false => simp [cleanup_old_keys, cleanupStopped]
    | true =>
      cases hPfx with
      | false => simp [cleanup_old_keys, cleanupStopped]
      | true =>
        cases fetch with
        | error u => simp [cleanup_old_keys, cleanupStopped]
        | ok sas =>
          by_cases he : (find_matching_service_accounts sas pfx).isEmpty = true
          · simp [cleanup_old_keys, he, cleanupStopped]
          · by_cases hle :
              ((find_matching_service_accounts sas pfx).length : Int) ≤ k
            · simp [cleanup_old_keys, he, hle, cleanupStopped]
            · simp [cleanup_old_keys, he, hle, cleanupStopped]
  · intro hP hPfx fetch createRes delOut pfx fmt today
    cases hP with
    | false => simp [execute_rotation, executeStopped]
    | true =>
      cases hPfx with
      | false => simp [execute_rotation, executeStopped]
      | true =>
        cases fetch with
        | error u => simp [execute_rotation, executeStopped]
        | ok sas =>
          by_cases hcol :
            (find_matching_service_accounts sas pfx).any
                (fun c => c.name = newSaName pfx fmt today) = true
          · simp [execute_rotation, hcol]
          · rw [Bool.not_eq_true] at hcol
            simp [execute_rotation, hcol]

theorem batchKeyStep_attempted_ext (pname pid : String)
    (process : String → KeyCfg → Except String Unit) (action : BatchAction)
    (acc : BatchResults) (idx : Nat) (k : KeyCfg) :
    ∃ l, (batchKeyStep pname pid process action acc idx k).attempted =
      acc.attempted ++ l := by
  unfold batchKeyStep
  cases k.name with
  | none => exact ⟨[], by simp⟩
  | some n =>
    cases process pid k with
    | ok u => exact ⟨[(pid, n)], rfl⟩
    | error e => exact ⟨[(pid, n)], rfl⟩

theorem batchKeyStep_failed_ext (pname pid : String)
    (process : String → KeyCfg → Except String Unit) (action : BatchAction)
    (acc : BatchResults) (idx : Nat) (k : KeyCfg) :
    ∃ l, (batchKeyStep pname pid process action acc idx k).failed =
      acc.failed ++ l := by
  unfold batchKeyStep
  cases k.name with
  | none => exact ⟨_, rfl⟩
  | some n =>
    cases process pid k with
    | ok u => exact ⟨[], by simp⟩
    | error e => exact ⟨_, rfl⟩

theorem batchKeys_attempted_ext (pname pid : String)
    (process : String → KeyCfg → Except String Unit) (action : BatchAction)
    (ks : List KeyCfg) :
    ∀ (idx : Nat) (acc : BatchResults),
      ∃ l, (batchKeys pname pid process action idx ks acc).attempted =
        acc.attempted ++ l := by
  induction ks with
  | nil => intro idx acc; exact ⟨[], by simp [batchKeys]⟩
  | cons y ys ih =>
    intro idx acc
    obtain ⟨l1, hl1⟩ := batchKeyStep_attempted_ext pname pid process action acc idx y
    obtain ⟨l2, hl2⟩ :=
      ih (idx + 1) (batchKeyStep pname pid process action acc idx y)
    exact ⟨l1 ++ l2, by simp [batchKeys, hl2, hl1]⟩

theorem batchKeys_failed_ext (pname pid : String)
    (process : String → KeyCfg → Except String Unit) (action : BatchAction)
    (ks : List KeyCfg) :
    ∀ (idx : Nat) (acc : BatchResults),
      ∃ l, (batchKeys pname pid process action idx ks acc).failed =
        acc.failed ++ l := by
  induction ks with
  | nil => intro idx acc; exact ⟨[], by simp [batchKeys]⟩
  | cons y ys ih =>
    intro idx acc
    obtain ⟨l1, hl1⟩ := batchKeyStep_failed_ext pname pid process action acc idx y
    obtain ⟨l2, hl2⟩ :=
      ih (idx + 1) (batchKeyStep pname pid process action acc idx y)
    exact ⟨l1 ++ l2, by simp [batchKeys, hl2, hl1]⟩

theorem batchProjStep_attempted_ext
    (process : String → KeyCfg → Except String Unit) (action : BatchAction)
    (acc : BatchResults) (r : ProjCfg) :
    ∃ l, (batchProjStep process action acc r).attempted =
      acc.attempted ++ l := by
  unfold batchProjStep
  cases r.project_id with
  | none => exact ⟨[], by simp⟩
  | some pid =>
    by_cases he : r.keys.isEmpty = true
    · exact ⟨[], by simp [he]⟩
    · rw [Bool.not_eq_true] at he
      simpa [he] using
        batchKeys_attempted_ext r.project_name pid process action r.keys 1 acc

theorem batchProjStep_failed_ext
    (process : String → KeyCfg → Except String Unit) (action : BatchAction)
    (acc : BatchResults) (r : ProjCfg) :
    ∃ l, (batchProjStep process action acc r).failed = acc.failed ++ l := by
  unfold batchProjStep
  cases r.project_id with
  | none => exact ⟨_, rfl⟩
  | some pid =>
    by_cases he : r.keys.isEmpty = true
    · exact ⟨[], by simp [he]⟩
    · rw [Bool.not_eq_true] at he
      simpa [he] using
        batchKeys_failed_ext r.project_name pid process action r.keys 1 acc

theorem batchFold_attempted_ext
    (process : String → KeyCfg → Except String Unit) (action : BatchAction)
    (rs : List ProjCfg) :
    ∀ acc : BatchResults,
      ∃ l, (rs.foldl (batchProjStep process action) acc).attempted =
        acc.attempted ++ l := by
  induction rs with
  | nil => intro acc; exact ⟨[], by simp⟩
  | cons r rs ih =>
    intro acc
    obtain ⟨l1, hl1⟩ := batchProjStep_attempted_ext process action acc r
    obtain ⟨l2, hl2⟩ := ih (batchProjStep process action acc r)
    exact ⟨l1 ++ l2, by simp [hl2, hl1]⟩

theorem batchFold_failed_ext
    (process : String → KeyCfg → Except String Unit) (action : BatchAction)
    (rs : List ProjCfg) :
    ∀ acc : BatchResults,
      ∃ l, (rs.foldl (batchProjStep process action) acc).failed =
        acc.failed ++ l := by
  induction rs with
  | nil => intro acc; exact ⟨[], by simp⟩
  | cons r rs ih =>
    intro acc
    obtain ⟨l1, hl1⟩ := batchProjStep_failed_ext process action acc r
    obtain ⟨l2, hl2⟩ := ih (batchProjStep process action acc r)
    exact ⟨l1 ++ l2, by simp [hl2, hl1]⟩

theorem batchKeys_attempt_mem (pname pid : String)
    (process : String → KeyCfg → Except String Unit) (action : BatchAction)
    {ks : List KeyCfg} {k : KeyCfg} {n : String} (hk : k ∈ ks)
    (hn : k.name = some n) :
    ∀ (idx : Nat) (acc : BatchResults),
      (pid, n) ∈ (batchKeys pname pid process action idx ks acc).attempted := by
  induction ks with
  | nil => cases hk
  | cons y ys ih =>
    intro idx acc
    rcases List.mem_cons.mp hk with h | h
    · subst h
      simp only [batchKeys]
      obtain ⟨l, hl⟩ :=
        batchKeys_attempted_ext pname pid process action ys (idx + 1)
          (batchKeyStep pname pid process action acc idx k)
      rw [hl]
      apply List.mem_append_left
      unfold batchKeyStep
      rw [hn]
      cases process pid k with
      | ok u => simp
      | error e => simp
    · exact ih h _ _

theorem batchKeys_failure_mem (pname pid : String)
    (process : String → KeyCfg → Except String Unit) (action : BatchAction)
    {ks : List KeyCfg} {k : KeyCfg} {n e : String} (hk : k ∈ ks)
    (hn : k.name = some n) (he : process pid k = .error e) :
    ∀ (idx : Nat) (acc : BatchResults),
      (pname ++ " / " ++ n ++ ": " ++ e) ∈
        (batchKeys pname pid process action idx ks acc).failed := by
  induction ks with
  | nil => cases hk
  | cons y ys ih =>
    intro idx acc
    rcases List.mem_cons.mp hk with h | h
    · subst h
      simp only [batchKeys]
      obtain ⟨l, hl⟩ :=
        batchKeys_failed_ext pname pid process action ys (idx + 1)
          (batchKeyStep pname pid process action acc idx k)
      rw [hl]
      apply List.mem_append_left
      unfold batchKeyStep
      rw [hn, he]
      simp
    · exact ih h _ _

/-- C9: for every batch configuration list, every well-formed key (its
group has a project id and the key has a name) is attempted no matter what
the processing of any other key does, and a key whose processing raises is
recorded as a failure under its own identity
(`project_name / key_name: error`); the batch never aborts on a
single-item failure, and the final tally is the per-item success, failed
and skipped lists of the result record, not one aggregate boolean. -/
theorem c9_batch_isolation (rotations : List ProjCfg)
    (process : String → KeyCfg → Except String Unit) (action : BatchAction)
    (r : ProjCfg) (k : KeyCfg) (pid n : String) (hr : r ∈ rotations)
    (hk : k ∈ r.keys) (hpid : r.project_id = some pid)
    (hn : k.name = some n) :
    (pid, n) ∈ (batch_rotation rotations process action).attempted ∧
    (∀ e, process pid k = .error e →
      (r.project_name ++ " / " ++ n ++ ": " ++ e) ∈
        (batch_rotation rotations process action).failed) := by
  obtain ⟨s, t, rfl⟩ := List.append_of_mem hr
  have hne : r.keys.isEmpty = false := by
    cases hkeys : r.keys with
    | nil => rw [hkeys] at hk; cases hk
    | cons a l => rfl
  unfold batch_rotation
  rw [List.foldl_append, List.foldl_cons]
  constructor
  · obtain ⟨l, hl⟩ :=
      batchFold_attempted_ext process action t
        (batchProjStep process action
          (s.foldl (batchProjStep process action)
            { success := [], failed := [], skipped := [], attempted := [] }) r)
    rw [hl]
    apply List.mem_append_left
    unfold batchProjStep
    rw [hpid]
    simp only [hne, Bool.false_eq_true, if_false]
    exact batchKeys_attempt_mem r.project_name pid process action hk hn 1 _
  · intro e he
    obtain ⟨l, hl⟩ :=
      batchFold_failed_ext process action t
        (batchProjStep process action
          (s.foldl (batchProjStep process action)
            { success := [], failed := [], skipped := [], attempted := [] }) r)
    rw [hl]
    apply List.mem_append_left
    unfold batchProjStep
    rw [hpid]
    simp only [hne, Bool.false_eq_true, if_false]
    exact batchKeys_failure_mem r.project_name pid process action hk hn he 1 _

/-- Witness for C9: a three-key group whose second key raises; the theorem
gives that keys 1 and 3 are still attempted and the failure is recorded
under key 2's identity. -/
theorem c9_batch_isolation_witness :
    ("proj_1", "alpha") ∈
      (batch_rotation
          [{ project_name := "P", project_id := some "proj_1",
              keys := [{ name := some "alpha" }, { name := some "beta" },
                { name := some "gamma" }] }]
          (fun _ k => if k.name = some "beta" then .error "boom" else .ok ())
          .create).attempted ∧
    ("proj_1", "gamma") ∈
      (batch_rotation
          [{ project_name := "P", project_id := some "proj_1",
              keys := [{ name := some "alpha" }, { name := some "beta" },
                { name := some "gamma" }] }]
          (fun _ k => if k.name = some "beta" then .error "boom" else .ok ())
          .create).attempted ∧
    ("P" ++ " / " ++ "beta" ++ ": " ++ "boom") ∈
      (batch_rotation
          [{ project_name := "P", project_id := some "proj_1",
              keys := [{ name := some "alpha" }, { name := some "beta" },
                { name := some "gamma" }] }]
          (fun _ k => if k.name = some "beta" then .error "boom" else .ok ())
          .create).failed :=
  ⟨(c9_batch_isolation _ _ .create
      { project_name := "P", project_id := some "proj_1",
        keys := [{ name := some "alpha" }, { name := some "beta" },
          { name := some "gamma" }] }
      { name := some "alpha" } "proj_1" "alpha" (by decide) (by decide) rfl
      rfl).1,
    (c9_batch_isolation _ _ .create
      { project_name := "P", project_id := some "proj_1",
        keys := [{ name := some "alpha" }, { name := some "beta" },
          { name := some "gamma" }] }
      { name := some "gamma" } "proj_1" "gamma" (by decide) (by decide) rfl
      rfl).1,
    (c9_batch_isolation _ _ .create
      { project_name := "P", project_id := some "proj_1",
        keys := [{ name := some "alpha" }, { name := some "beta" },
          { name := some "gamma" }] }
      { name := some "beta" } "proj_1" "beta" (by decide) (by decide) rfl
      rfl).2 "boom" rfl⟩

/-- C4 counterexample: with recipient and an available `email` channel
both set and a wrapped command that returns normally, exactly one delivery
is made but its message uses the generic untagged format (the
success/failure classification is only passed to the mattermost
formatter), so the delivery is not tagged success as the claim states. -/
theorem c4_counterexample :
    (with_notification (some "49") (some "email")
          { available := fun _ => true, sendOk := true } "out"
          (.ok "r")).attempts =
      [{ channel := "email", user := "49",
          result := .sent none true }] ∧
    ¬ AttemptResult.sent none true = .sent (some true) true := by
  refine ⟨rfl, by decide⟩

/-- C4 (amended): for every wrapped command invocation: with recipient and
channel both unset the command runs as a plain passthrough (its output
reaches the real console exactly once, with no capture and no
notification attempt); with exactly one of them set a usage error is
reported and the wrapped command is never invoked; with both set the
captured output is replayed to the real console exactly once and exactly
one notification phase runs — no send when the channel is unavailable,
a send tagged with the command's success/failure classification when the
channel is mattermost and the command returned or raised an ordinary
exception, an internal failure with no send when the command exited the
process, and an untagged generic-format send for every other channel. -/
theorem c4_notification_wrapper_amended :
    (∀ (env : WrapEnv) (cmdOut : String) (outcome : CmdOutcome),
      (with_notification none none env cmdOut outcome).passthroughOut =
        [cmdOut] ∧
      (with_notification none none env cmdOut outcome).replayedOut = [] ∧
      (with_notification none none env cmdOut outcome).captured = none ∧
      (with_notification none none env cmdOut outcome).attempts = [] ∧
      (with_notification none none env cmdOut outcome).cmdInvoked = true ∧
      (with_notification none none env cmdOut outcome).usageError = false) ∧
    (∀ (u : String) (env : WrapEnv) (cmdOut : String) (outcome : CmdOutcome),
      (with_notification (some u) none env cmdOut outcome).usageError =
        true ∧
      (with_notification (some u) none env cmdOut outcome).cmdInvoked =
        false ∧
      (with_notification none (some u) env cmdOut outcome).usageError =
        true ∧
      (with_notification none (some u) env cmdOut outcome).cmdInvoked =
        false) ∧
    (∀ (u ch : String) (env : WrapEnv) (cmdOut : String)
        (outcome : CmdOutcome),
      (with_notification (some u) (some ch) env cmdOut
          outcome).replayedOut.length = 1 ∧
      (with_notification (some u) (some ch) env cmdOut
          outcome).passthroughOut = [] ∧
      (with_notification (some u) (some ch) env cmdOut outcome).attempts =
        [{ channel := ch, user := u,
            result :=
              if ¬ env.available ch then .unavailableChannel
              else if ch = "mattermost" then
                match outcome with
                | .ok _ => .sent (some true) env.sendOk
                | .exc _ => .sent (some false) env.sendOk
                | .exits _ => .internalError
              else .sent none env.sendOk }]) := by
  refine ⟨?_, ?_, ?_⟩
  · intro env cmdOut outcome
    refine ⟨rfl, rfl, rfl, rfl, rfl, rfl⟩
  · intro u env cmdOut outcome
    refine ⟨rfl, rfl, rfl, rfl⟩
  · intro u ch env cmdOut outcome
    refine ⟨rfl, rfl, ?_⟩
    cases outcome with
    | ok v => rfl
    | exc m => rfl
    | exits c => rfl

/-- C10: with a recipient/channel pair configured, a wrapped command that
raises an ordinary exception has the exception swallowed by the wrapper:
the error text is recorded in the captured output, the run is classified
as failed, nothing propagates (no exception, no process exit), and the
wrapper returns `None` to the caller. -/
theorem c10_wrapper_swallows_exceptions (u ch : String) (env : WrapEnv)
    (cmdOut m : String) :
    (with_notification (some u) (some ch) env cmdOut
        (.exc m)).propagatedExc = none ∧
    (with_notification (some u) (some ch) env cmdOut
        (.exc m)).propagatedExit = none ∧
    (with_notification (some u) (some ch) env cmdOut (.exc m)).returned =
      none ∧
    (with_notification (some u) (some ch) env cmdOut (.exc m)).successFlag =
      some false ∧
    (with_notification (some u) (some ch) env cmdOut (.exc m)).captured =
      some (cmdOut ++ "\nError: " ++ m ++ "\n") := by
  refine ⟨rfl, rfl, rfl, rfl, rfl⟩

end OpenAIAdmin
